import Mathlib

/-!
Verification of the nostr-rs-relay core against its specification.

Shallow embedding of the relay's event-persistence layer
(src/repo/postgres.rs), the writer loop (src/db.rs) and the connection
state machine (src/conn.rs).  SQL statements are modelled by their row
semantics over an in-memory list of rows; where a claim is about the
*text* of a generated query, the text is rebuilt by transcribing the
query-builder calls.  Timestamps are modelled as seconds (Nat).
-/

namespace NostrRelay

/-! ## Hex utilities.
Modelled from the spec: `is_hex`, `is_lower_hex` (src/utils.rs is not
part of the sources) accept ASCII hex digits, the lowercase variant
rejecting uppercase letters; `hex::decode` turns an even-length hex
string into bytes. -/

def hexVal (c : Char) : Option Nat :=
  if '0' ≤ c ∧ c ≤ '9' then some (c.toNat - '0'.toNat)
  else if 'a' ≤ c ∧ c ≤ 'f' then some (c.toNat - 'a'.toNat + 10)
  else if 'A' ≤ c ∧ c ≤ 'F' then some (c.toNat - 'A'.toNat + 10)
  else none

def hexDecodeList : List Char → Option (List Nat)
  | [] => some []
  | [_] => none
  | c1 :: c2 :: rest => do
    let h ← hexVal c1
    let l ← hexVal c2
    let r ← hexDecodeList rest
    pure ((h * 16 + l) :: r)

def hexDecode (s : String) : Option (List Nat) :=
  hexDecodeList s.data

def isHexChar (c : Char) : Bool :=
  (hexVal c).isSome

def isHex (s : String) : Bool :=
  s.data.all isHexChar

def isLowerHexChar (c : Char) : Bool :=
  isHexChar c && !('A' ≤ c && c ≤ 'F')

def isLowerHex (s : String) : Bool :=
  s.data.all isLowerHexChar

/-- Modelled from the spec: `single_char_tagname` (src/event.rs is not in
the sources); §3: only tag rows "whose name is a single ASCII letter" are
indexed. -/
def singleCharTagname (name : String) : Bool :=
  match name.data with
  | [c] => c.isAlpha
  | _ => false

/-- Modelled from the spec: `Event::tag_values_by_name` (src/event.rs is
not in the sources); returns the second element of every tag row of
length ≥ 2 whose first element is `name`. -/
def tagValuesByName (name : String) (tags : List (List String)) : List String :=
  tags.filterMap (fun t => if 2 ≤ t.length ∧ t.head? = some name then t.get? 1 else none)

/-! ## Data model (spec §3 / §6 logical schema). -/

/-- A protocol event as submitted by a client.  `sig_valid` — Modelled
from the spec: the result of `Event::validate` (canonical hash plus
signature check), whose primitives are out of scope (§1). -/
structure Event where
  id : String
  pubkey : String
  created_at : Nat
  kind : Nat
  tags : List (List String)
  content : String
  delegated_by : Option String
  sig_valid : Bool
deriving Repr, DecidableEq

/-- A value in the `tag.value` column: spec §6 "value BLOB-or-TEXT".
SQL equality across forms, or against NULL, never holds. -/
inductive SqlVal where
  | vbytes : List Nat → SqlVal
  | vtext : String → SqlVal
  | vnull : SqlVal
deriving Repr, DecidableEq

/-- SQL equality between two stored/bound values: NULL compares false to
everything, and a byte value never equals a text value. -/
def sqlEq : SqlVal → SqlVal → Bool
  | .vbytes a, .vbytes b => a == b
  | .vtext a, .vtext b => a == b
  | _, _ => false

/-- A row of the `event` table together with its rows of the `tag`
table (spec §6); `eid` is the BLOB primary key. -/
structure StoredEvent where
  eid : List Nat
  pubKey : Option (List Nat)
  createdAt : Nat
  kind : Nat
  delegatedBy : Option (List Nat)
  hidden : Bool
  etags : List (String × SqlVal)
deriving Repr, DecidableEq

abbrev Store := List StoredEvent

/-- SQL equality `pub_key = $n` where both sides may be NULL: a NULL on
either side never matches. -/
def optBytesEq (a b : Option (List Nat)) : Bool :=
  match a, b with
  | some x, some y => x == y
  | _, _ => false

/-- The tag-table value written by `write_event` (postgres.rs:77-94):
even-length lowercase-hex values are stored as decoded bytes, anything
else as text.  (The code binds `hex::decode(tag_val).ok()`, hence NULL
if decoding were to fail.) -/
def tagRowValue (v : String) : SqlVal :=
  if isLowerHex v && v.length % 2 == 0 then
    match hexDecode v with
    | some b => .vbytes b
    | none => .vnull
  else .vtext v

/-- Tag rows inserted for an event (postgres.rs:68-99): rows of length
≥ 2 with a single-letter name, `ON CONFLICT (event_id, name) DO
NOTHING` keeping only the first row per name. -/
def buildTagRows (tags : List (List String)) : List (String × SqlVal) :=
  tags.foldl
    (fun acc t =>
      match t with
      | name :: v :: _ =>
        if singleCharTagname name then
          if acc.any (fun nv => nv.1 == name) then acc
          else acc ++ [(name, tagRowValue v)]
        else acc
      | _ => acc)
    []

/-- Replaceable kinds (postgres.rs:104): 0, 3, or 10000 ≤ k < 20000. -/
def replaceableKind (k : Nat) : Bool :=
  k == 0 || k == 3 || (decide (10000 ≤ k) && decide (k < 20000))

/-- `UPDATE "event" SET hidden = 1::bit(1) WHERE <cond>` applied to one
row. -/
def hideIf (c : StoredEvent → Bool) (r : StoredEvent) : StoredEvent :=
  if c r then { r with hidden := true } else r

/-- The replaceable-event UPDATE (postgres.rs:105-113): hide every other
event with the same kind and author issued no later than the incoming
one. -/
def hideOlderRow (idb : List Nat) (k : Nat) (pkb : Option (List Nat)) (t : Nat) :
    StoredEvent → StoredEvent :=
  hideIf (fun r =>
    (r.eid != idb) && (r.kind == k) && optBytesEq r.pubKey pkb
      && decide (r.createdAt ≤ t) && !r.hidden)

/-- `write_event` of the postgres repository (postgres.rs:34-185),
modelled over an in-memory row list within one transaction.  The insert
uses `ON CONFLICT (id) DO NOTHING` (duplicate ⇒ return 0); a NULL id
violates the BLOB PRIMARY KEY.  A kind-5 event with no valid `e`-tag
candidates produces `... event_hash IN ()`, which the SQL engine rejects
as a syntax error, aborting the transaction.  The deletion UPDATE's
`event_hash` column is the event id: modelled from the spec (§4.3 step 7,
the migration defining the physical schema is not in the sources). -/
def writeEvent (store : Store) (e : Event) : Except String (Store × Nat) :=
  match hexDecode e.id with
  | none => .error "null value in column id violates not-null constraint"
  | some idb =>
    if store.any (fun r => r.eid == idb) then .ok (store, 0)
    else
      let pkb := hexDecode e.pubkey
      let row : StoredEvent :=
        { eid := idb, pubKey := pkb, createdAt := e.created_at, kind := e.kind,
          delegatedBy := e.delegated_by.bind hexDecode, hidden := false,
          etags := buildTagRows e.tags }
      let s1 := store ++ [row]
      let s2 := if replaceableKind e.kind
                then s1.map (hideOlderRow idb e.kind pkb e.created_at)
                else s1
      if e.kind == 5 then
        let keys := ((tagValuesByName "e" e.tags).filter
            (fun x => isHex x && x.length == 64)).filterMap hexDecode
        if keys.isEmpty then .error "syntax error at or near the empty IN list"
        else
          .ok (s2.map (hideIf (fun r =>
            (r.kind != 5) && optBytesEq r.pubKey pkb && keys.contains r.eid)), 1)
      else
        let priorDeletion := s2.any (fun r =>
          optBytesEq r.pubKey pkb && r.kind == 5
            && r.etags.any (fun nv => nv.1 == "e" && sqlEq nv.2 (SqlVal.vbytes idb)))
        if priorDeletion then
          .ok (s2.map (hideIf (fun r => r.eid == idb)), 0)
        else .ok (s2, 1)

/-! ## The writer loop (src/db.rs `db_writer`). -/

/-- What the writer sends back for one submitted event: an `OK`-style
notice, or nothing (ephemeral events are broadcast without a notice). -/
inductive Reply where
  | saved
  | duplicate
  | blocked
  | errorNotice
  | noreply
deriving Repr, DecidableEq

/-- One iteration of `db_writer` past the authorization gate
(db.rs:227-259): ephemeral kinds are broadcast without persistence;
otherwise `write_event` runs, 0 effective rows means `duplicate`, a
positive count means `saved` plus a broadcast, and a storage error means
an `error` notice with no broadcast.  NIP-05 gating is disabled and the
rate limiter does not alter replies or the store, so neither appears.
Result: (store after, reply, was a broadcast emitted). -/
def processCore (store : Store) (e : Event) : Store × Reply × Bool :=
  if 20000 ≤ e.kind ∧ e.kind < 30000 then (store, .noreply, true)
  else
    match writeEvent store e with
    | .ok (s2, n) => if n == 0 then (s2, .duplicate, false) else (s2, .saved, true)
    | .error _ => (store, .errorNotice, false)

/-- One iteration of `db_writer` (db.rs:153-259): when a pubkey
whitelist is configured, an event whose `pubkey` is not listed is
answered with a `blocked` notice and dropped (the code consults only
`event.pubkey`; db.rs:154-170). -/
def processEvent (whitelist : Option (List String)) (store : Store) (e : Event) :
    Store × Reply × Bool :=
  match whitelist with
  | some allowed =>
    if allowed.contains e.pubkey then processCore store e
    else (store, .blocked, false)
  | none => processCore store e

/-! ## Subscription filters and the historical query (postgres.rs
`query_from_filter`). -/

/-- A REQ filter (spec §3).  The tag map is kept as an association list
to make query generation deterministic. -/
structure ReqFilter where
  ids : Option (List String) := none
  kinds : Option (List Nat) := none
  since : Option Nat := none
  until_ : Option Nat := none  -- the source's field is named `until`, a Lean keyword
  authors : Option (List String) := none
  limit : Option Nat := none
  tags : Option (List (String × List String)) := none
  force_no_match : Bool := false
deriving Repr

/-- Classification of a hex prefix.  Modelled from the spec:
`hex_range` (src/hexrange.rs is not in the sources); §4.5: Exact
(64 hex chars → equality), Range (even length < 64 → `[prefix,
next_prefix)` byte range), LowerOnly (odd length or edge case →
`> prefix_padded_low`); non-hex input is unparseable. -/
inductive HexSearch where
  | exact : List Nat → HexSearch
  | range : List Nat → List Nat → HexSearch
  | lowerOnly : List Nat → HexSearch
deriving Repr, DecidableEq

/-- Increment a byte string (least-significant byte last); none when
every byte is 0xff. -/
def incrBytesRev : List Nat → Option (List Nat)
  | [] => none
  | b :: rest =>
    if b < 255 then some ((b + 1) :: rest)
    else (incrBytesRev rest).map (fun r => 0 :: r)

def nextPrefix (bs : List Nat) : Option (List Nat) :=
  (incrBytesRev bs.reverse).map List.reverse

/-- Modelled from the spec: `hex_range` classification, see
`HexSearch`. -/
def hexRange (s : String) : Option HexSearch :=
  if !isHex s then none
  else if s.length == 64 then (hexDecode s).map .exact
  else if s.length % 2 == 0 then
    match hexDecode s with
    | none => none
    | some lower =>
      match nextPrefix lower with
      | some upper => some (.range lower upper)
      | none => some (.lowerOnly lower)
  else (hexDecode (s ++ "0")).map .lowerOnly

/-- SQL text pushed for one author prefix (postgres.rs:242-274), bound
parameters rendered as `$`.  Each string literal concatenation mirrors
one `push`/`push_bind` call of the builder. -/
def authorsFrag (auth : String) : Option String :=
  match hexRange auth with
  | some (.exact _) =>
    some ("(e.pub_key = " ++ "$" ++ " OR e.delegated_by = " ++ "$" ++ ")")
  | some (.range _ _) =>
    some ("(e.pub_key > " ++ "$" ++ " AND e.pub_key < " ++ "$"
      ++ " OR (e.delegated_by > " ++ "$" ++ " AND e.delegated_by < " ++ "$" ++ ")")
  | some (.lowerOnly _) =>
    some ("(e.pub_key > " ++ "$" ++ " OR e.delegated_by > " ++ "$" ++ ")")
  | none => none

/-- SQL text pushed for one event-id prefix (postgres.rs:309-333). -/
def idsFrag (i : String) : Option String :=
  match hexRange i with
  | some (.exact _) => some ("(id = " ++ "$" ++ ")")
  | some (.range _ _) => some ("(id > " ++ "$" ++ " AND id < " ++ "$" ++ ")")
  | some (.lowerOnly _) => some ("(id > " ++ "$" ++ ")")
  | none => none

/-- Append a clause, prefixing `" AND "` when something was pushed
before (the `push_and` flag of postgres.rs). -/
def addClause (acc : String × Bool) (clause : String) : String × Bool :=
  (acc.1 ++ (if acc.2 then " AND " else "") ++ clause, true)

/-- The SQL text generated by `query_from_filter` (postgres.rs:229-405),
with every bound parameter rendered as `$` (bound values are sent out of
band and never alter the statement text).  Returns none when
`force_no_match` is set. -/
def querySqlText (f : ReqFilter) : Option String :=
  if f.force_no_match then none
  else
    let acc : String × Bool :=
      match f.authors with
      | none => ("", false)
      | some av => (String.intercalate " OR " (av.filterMap authorsFrag), !av.isEmpty)
    let acc :=
      match f.kinds with
      | some ks =>
        if ks.isEmpty then acc
        else addClause acc ("e.kind in ("
          ++ String.intercalate ", " (ks.map (fun _ => "$")) ++ ")")
      | none => acc
    let acc :=
      match f.ids with
      | some iv =>
        if iv.isEmpty then acc
        else addClause acc (String.intercalate " OR " (iv.filterMap idsFrag))
      | none => acc
    let acc :=
      match f.tags with
      | some m =>
        if m.isEmpty then acc
        else addClause acc (String.join (m.map (fun kv =>
          "e.id IN (SELECT ee.id FROM \"event\" ee LEFT JOIN tag t on ee.id = t.event_id WHERE ee.hidden != 1::bit(1) and (t.\"name\" = "
          ++ "$" ++ " AND (value in ("
          ++ String.intercalate ", " (kv.2.map (fun _ => "$")) ++ ")))")))
      | none => acc
    let acc :=
      match f.since with
      | some _ => addClause acc ("e.created_at > " ++ "$")
      | none => acc
    let acc :=
      match f.until_ with
      | some _ => addClause acc ("e.created_at < " ++ "$")
      | none => acc
    let sql := acc.1 ++ (if acc.2 then " AND hidden != 1::bit(1)" else "hidden != 1::bit(1)")
    let tail :=
      match f.limit with
      | some lim => " ORDER BY e.created_at DESC LIMIT " ++ toString lim
      | none => " ORDER BY e.created_at ASC"
    some ("SELECT e.\"content\", e.created_at FROM \"event\" e WHERE " ++ sql ++ tail)

/-- Parenthesis scan: true iff every `)` closes an earlier `(` and all
are closed at the end. -/
def parenScan : List Char → Nat → Bool
  | [], d => d == 0
  | c :: rest, d =>
    if c == '(' then parenScan rest (d + 1)
    else if c == ')' then
      match d with
      | 0 => false
      | Nat.succ d2 => parenScan rest d2
    else parenScan rest d

def balancedParens (s : String) : Bool :=
  parenScan s.data 0

/-- Row semantics of the compiled query for a filter with no
`authors`, `ids` or `tags` constraint: the `e.kind in (...)`,
`e.created_at > $`, `e.created_at < $` and `hidden != 1::bit(1)`
clauses of postgres.rs:280-394. -/
def rowMatchesBasic (f : ReqFilter) (r : StoredEvent) : Bool :=
  (match f.kinds with
   | some ks => if ks.isEmpty then true else ks.contains r.kind
   | none => true)
  && (match f.since with
      | some s => decide (r.createdAt > s)
      | none => true)
  && (match f.until_ with
      | some u => decide (r.createdAt < u)
      | none => true)
  && !r.hidden

/-- The parameter the tag filter compiles for one requested value
(postgres.rs:353-361): values that are odd-length or not lowercase hex
are bound as text, everything else as `hex::decode(v).ok()` — NULL when
the decode fails. -/
def queryTagParam (v : String) : SqlVal :=
  if v.length % 2 != 0 && !isLowerHex v then .vtext v
  else
    match hexDecode v with
    | some b => .vbytes b
    | none => .vnull

/-- Does the stored form of a tag value match the query-side parameter
compiled for the identical string? -/
def tagLookupMatches (v : String) : Bool :=
  sqlEq (tagRowValue v) (queryTagParam v)

/-- Row semantics of one tag clause (postgres.rs:347-362): the row is
not hidden and owns a tag row whose name matches and whose value equals
one of the compiled parameters. -/
def tagClauseMatches (key : String) (vals : List String) (r : StoredEvent) : Bool :=
  !r.hidden && r.etags.any (fun nv => nv.1 == key && vals.any (fun v => sqlEq nv.2 (queryTagParam v)))

/-! ## Connection state (src/conn.rs). -/

inductive ConnError where
  | SubIdMaxLengthError
  | SubMaxExceededError
deriving Repr, DecidableEq

/-- A subscription; only the identifier matters to the connection
bookkeeping modelled here. -/
structure Subscription where
  id : String
  filters : List ReqFilter := []
deriving Repr

/-- `ClientConn::subscribe` (conn.rs:116-152) over the subscription map
as an association list (`MAX_SUBSCRIPTION_ID_LEN = 256`, byte length):
ids longer than 256 bytes are rejected; an existing id is replaced
(remove then insert); a full map rejects; otherwise insert. -/
def subscribe (subs : List (String × Subscription)) (maxSubs : Nat)
    (s : Subscription) : Except ConnError (List (String × Subscription)) :=
  let k := s.id
  if 256 < k.utf8ByteSize then .error .SubIdMaxLengthError
  else if subs.any (fun kv => kv.1 == k) then
    .ok (subs.filter (fun kv => kv.1 != k) ++ [(k, s)])
  else if maxSubs ≤ subs.length then .error .SubMaxExceededError
  else .ok (subs ++ [(k, s)])

/-- NIP-42 authentication state (conn.rs:22-29). -/
inductive AuthState where
  | NoAuth
  | Challenge : String → AuthState
  | AuthPubkey : String → AuthState
deriving Repr, DecidableEq

/-- Drop everything up to and including the first `"://"`. -/
def dropScheme : List Char → Option (List Char)
  | ':' :: '/' :: '/' :: rest => some rest
  | _ :: rest => dropScheme rest
  | [] => none

/-- Modelled from the spec: `host_str` (src/utils.rs is not in the
sources) returns the host component of a URL. -/
def hostStr (url : String) : Option String :=
  match dropScheme url.data with
  | none => none
  | some rest =>
    let h := rest.takeWhile (fun c => !(c == '/' || c == ':' || c == '?' || c == '#'))
    if h.isEmpty then none else some (String.mk h)

/-- The value retained by the tag scan of `authenticate`
(conn.rs:197-204): each tag row of length 2 whose first element is
`name` overwrites the accumulator, so the last such row wins. -/
def lastTagVal (name : String) (tags : List (List String)) : Option String :=
  tags.foldl
    (fun acc t => if t.length == 2 && t.head? == some name then t.get? 1 else acc)
    none

/-- `ClientConn::authenticate` (conn.rs:169-238): requires state
`Challenge` (already-authenticated is a no-op success, `NoAuth` fails),
a validating kind-22242 event within ±600 s of now, a challenge tag
equal to the stored nonce and a relay tag whose host equals the host of
the relay's advertised URL.  Returns the successor state. -/
def authenticate (st : AuthState) (e : Event) (relayUrl : String) (currTime : Nat) :
    Except String AuthState :=
  match st with
  | .AuthPubkey _ => .ok st
  | .NoAuth => .error "AuthFailure"
  | .Challenge nonce =>
    if !e.sig_valid then .error "AuthFailure"
    else if e.kind != 22242 then .error "AuthFailure"
    else if e.created_at < currTime - 600 || e.created_at > currTime + 600 then
      .error "AuthFailure"
    else
      match lastTagVal "challenge" e.tags with
      | none => .error "AuthFailure"
      | some c =>
        if c != nonce then .error "AuthFailure"
        else
          match (lastTagVal "relay" e.tags).bind hostStr, hostStr relayUrl with
          | some rc, some ours =>
            if rc != ours then .error "AuthFailure"
            else .ok (.AuthPubkey e.pubkey)
          | _, _ => .error "AuthFailure"

/-! ## Sequences of writes and the replaceable-visibility invariant. -/

/-- Visibility predicate for the replaceable invariant: a row of the
given kind and (non-NULL) author that is not hidden. -/
def visPred (p : List Nat) (k : Nat) (r : StoredEvent) : Bool :=
  !r.hidden && r.kind == k && r.pubKey == some p

/-- Number of visible rows for one `(pubkey, kind)` group. -/
def visibleCount (s : Store) (p : List Nat) (k : Nat) : Nat :=
  s.countP (visPred p k)

/-- Spec §8 invariant: at most one visible row per replaceable
`(pubkey, kind)`. -/
def uniqueReplaceable (s : Store) : Prop :=
  ∀ p k, replaceableKind k = true → visibleCount s p k ≤ 1

/-- The incoming event is at least as new as every stored event of its
replaceable group (trivially true for non-replaceable kinds). -/
def newestForItsGroup (s : Store) (e : Event) : Bool :=
  !replaceableKind e.kind
    || s.all (fun r =>
        !((r.kind == e.kind) && optBytesEq r.pubKey (hexDecode e.pubkey))
          || decide (r.createdAt ≤ e.created_at))

/-- Run `write_event` over a list of events, stopping at the first
storage error. -/
def writeAll (s : Store) : List Event → Except String Store
  | [] => .ok s
  | e :: es =>
    match writeEvent s e with
    | .ok p => writeAll p.1 es
    | .error m => .error m

/-- Every write in the sequence succeeds and every replaceable event
arrives no older than the stored events of its `(pubkey, kind)`
group. -/
def orderedRunB (s : Store) : List Event → Bool
  | [] => true
  | e :: es =>
    newestForItsGroup s e
      && (match writeEvent s e with
          | .ok p => orderedRunB p.1 es
          | .error _ => false)

/-- The `event`-table row inserted by `write_event` for an event whose
id decodes to `ib` (postgres.rs:46-60 plus the tag inserts). -/
def insertedRow (e : Event) (ib : List Nat) : StoredEvent :=
  { eid := ib, pubKey := hexDecode e.pubkey, createdAt := e.created_at, kind := e.kind,
    delegatedBy := e.delegated_by.bind hexDecode, hidden := false,
    etags := buildTagRows e.tags }

/-! ## Concrete instances used by witnesses and counterexamples. -/

/-- Replaceable (kind 0) event, author `bb`, at time 100. -/
def evA : Event :=
  { id := "aa", pubkey := "bb", created_at := 100, kind := 0, tags := [],
    content := "", delegated_by := none, sig_valid := true }

/-- Replaceable (kind 0) event, same author, at time 200. -/
def evB : Event := { evA with id := "ab", created_at := 200 }

/-- Replaceable (kind 0) event, same author, at time 100 again. -/
def evC : Event := { evA with id := "ac", created_at := 100 }

/-- Store reached by writing `evB` (time 200) and then `evC` (time
100): both rows of the kind-0 group stay visible. -/
def c1badStore : Store :=
  [{ eid := [171], pubKey := some [187], createdAt := 200, kind := 0,
     delegatedBy := none, hidden := false, etags := [] },
   { eid := [172], pubKey := some [187], createdAt := 100, kind := 0,
     delegatedBy := none, hidden := false, etags := [] }]

/-- Store reached by writing `evA` (time 100) and then `evB` (time
200): the older row is hidden. -/
def c1goodStore : Store :=
  [{ eid := [170], pubKey := some [187], createdAt := 100, kind := 0,
     delegatedBy := none, hidden := true, etags := [] },
   { eid := [171], pubKey := some [187], createdAt := 200, kind := 0,
     delegatedBy := none, hidden := false, etags := [] }]

/-- Filter with both time bounds set. -/
def c2filter : ReqFilter := { since := some 5, until_ := some 9 }

/-- Visible row exactly at the `since` bound. -/
def c2rowLow : StoredEvent :=
  { eid := [1], pubKey := none, createdAt := 5, kind := 1,
    delegatedBy := none, hidden := false, etags := [] }

/-- Visible row exactly at the `until` bound. -/
def c2rowHigh : StoredEvent := { c2rowLow with createdAt := 9 }

/-- Visible row strictly inside the time window. -/
def c2rowMid : StoredEvent := { c2rowLow with createdAt := 6 }

/-- REQ filter with the two-hex-character author prefix of spec §8
scenario 4. -/
def c3filter : ReqFilter := { authors := some ["ab"] }

/-- Event carrying a single-letter tag whose value is odd-length
lowercase hex. -/
def c4event : Event :=
  { id := "aa", pubkey := "bb", created_at := 1, kind := 1,
    tags := [["t", "abc"]], content := "", delegated_by := none, sig_valid := true }

/-- Regular event with full-length (64 hex chars) id and pubkey. -/
def c5event : Event :=
  { id := "aaaaaaaaaaaaaaaaaaaaaaaaaaaaaaaaaaaaaaaaaaaaaaaaaaaaaaaaaaaaaaaa",
    pubkey := "cccccccccccccccccccccccccccccccccccccccccccccccccccccccccccccccc",
    created_at := 10, kind := 1, tags := [], content := "",
    delegated_by := none, sig_valid := true }

/-- Kind-5 deletion of `c5event` by the same author. -/
def c5del : Event :=
  { id := "bbbbbbbbbbbbbbbbbbbbbbbbbbbbbbbbbbbbbbbbbbbbbbbbbbbbbbbbbbbbbbbb",
    pubkey := c5event.pubkey, created_at := 11, kind := 5,
    tags := [["e", c5event.id]], content := "",
    delegated_by := none, sig_valid := true }

/-- Event whose author is not whitelisted but whose delegator is. -/
def c7event : Event :=
  { id := "cc", pubkey := "aa", created_at := 1, kind := 1, tags := [],
    content := "", delegated_by := some "dd", sig_valid := true }

/-- Valid AUTH event carrying two `challenge` tags — the second one
matching the nonce — and one matching `relay` tag. -/
def c8eventTwo : Event :=
  { id := "ee", pubkey := "deadbeef", created_at := 1000, kind := 22242,
    tags := [["challenge", "wrong"], ["challenge", "n1"],
             ["relay", "wss://relay.example/"]],
    content := "", delegated_by := none, sig_valid := true }

/-- Valid AUTH event with exactly one matching `challenge` and `relay`
tag. -/
def c8eventOk : Event :=
  { c8eventTwo with
    id := "ef"
    tags := [["challenge", "n1"], ["relay", "wss://relay.example/"]] }

/-- Subscription with the empty identifier. -/
def emptySub : Subscription := { id := "" }

/-- Subscription id of exactly 256 bytes. -/
def sub256 : Subscription := { id := String.mk (List.replicate 256 'x') }

/-- Subscription id of 257 bytes. -/
def sub257 : Subscription := { id := String.mk (List.replicate 257 'x') }

/-- Kind-5 deletion event with no `e` tag at all. -/
def c10del : Event :=
  { id := "ff", pubkey := "bb", created_at := 1, kind := 5, tags := [],
    content := "", delegated_by := none, sig_valid := true }

/-! ## Helper lemmas. -/

theorem hideIf_cases (c : StoredEvent → Bool) (r : StoredEvent) :
    hideIf c r = r ∨ hideIf c r = { r with hidden := true } := by
  unfold hideIf
  split
  · exact Or.inr rfl
  · exact Or.inl rfl

theorem visPred_hideIf (c : StoredEvent → Bool) (p : List Nat) (k : Nat)
    (r : StoredEvent) (h : visPred p k (hideIf c r) = true) : visPred p k r = true := by
  rcases hideIf_cases c r with h1 | h1 <;> rw [h1] at h
  · exact h
  · simp [visPred] at h

theorem visibleCount_map_hideIf_le (c : StoredEvent → Bool) (l : Store)
    (p : List Nat) (k : Nat) :
    visibleCount (l.map (hideIf c)) p k ≤ visibleCount l p k := by
  unfold visibleCount
  rw [List.countP_map]
  exact List.countP_mono_left (fun r _ hr => visPred_hideIf c p k r hr)

theorem uniqueReplaceable_map_hideIf (c : StoredEvent → Bool) (l : Store)
    (h : uniqueReplaceable l) : uniqueReplaceable (l.map (hideIf c)) :=
  fun p k hk => le_trans (visibleCount_map_hideIf_le c l p k) (h p k hk)

theorem isHex_of_isLowerHex (s : String) (h : isLowerHex s = true) : isHex s = true := by
  unfold isLowerHex at h
  unfold isHex
  rw [List.all_eq_true] at h ⊢
  intro c hc
  have hh := h c hc
  simp only [isLowerHexChar, Bool.and_eq_true] at hh
  exact hh.1

theorem visPred_decomp (p : List Nat) (k : Nat) (r : StoredEvent)
    (h : visPred p k r = true) :
    r.hidden = false ∧ r.kind = k ∧ r.pubKey = some p := by
  simpa [visPred, Bool.and_eq_true, Bool.not_eq_true', beq_iff_eq, and_assoc] using h

theorem uniqueReplaceable_append (s : Store) (row : StoredEvent)
    (hinv : uniqueReplaceable s) (hnr : replaceableKind row.kind = false) :
    uniqueReplaceable (s ++ [row]) := by
  intro p k hk
  unfold visibleCount
  rw [List.countP_append]
  have h0 : List.countP (visPred p k) [row] = 0 := by
    rw [List.countP_eq_zero]
    intro a ha
    rw [List.mem_singleton] at ha
    subst ha
    intro hv
    obtain ⟨-, hkk, -⟩ := visPred_decomp p k a hv
    rw [hkk] at hnr
    rw [hnr] at hk
    exact Bool.false_ne_true hk
  have h1 := hinv p k hk
  unfold visibleCount at h1
  omega

theorem unique_hideOlder (s : Store) (e : Event) (idb : List Nat)
    (hinv : uniqueReplaceable s)
    (hnew : newestForItsGroup s e = true)
    (hrep : replaceableKind e.kind = true)
    (hdup : s.any (fun r => r.eid == idb) = false) :
    uniqueReplaceable
      ((s ++ [insertedRow e idb]).map
        (hideOlderRow idb e.kind (hexDecode e.pubkey) e.created_at)) := by
  intro p k hk
  unfold visibleCount
  rw [List.countP_map, List.countP_append]
  by_cases hmain : k = e.kind ∧ hexDecode e.pubkey = some p
  · obtain ⟨hkeq, hpeq⟩ := hmain
    have hzero : s.countP
        (visPred p k ∘ hideOlderRow idb e.kind (hexDecode e.pubkey) e.created_at) = 0 := by
      rw [List.countP_eq_zero]
      intro r hr hvr
      have hvr0 : visPred p k
          (hideOlderRow idb e.kind (hexDecode e.pubkey) e.created_at r) = true := hvr
      have hvr1 : visPred p k r = true := visPred_hideIf _ p k r hvr0
      obtain ⟨hh, hkk, hpp⟩ := visPred_decomp p k r hvr1
      have hrne : ¬((r.eid == idb) = true) := (List.any_eq_false.mp hdup) r hr
      have hbne : (r.eid != idb) = true := by
        cases h2 : r.eid == idb
        · simp [bne, h2]
        · exact absurd h2 hrne
      have hkb : (r.kind == e.kind) = true := by
        rw [hkk, hkeq]
        simp
      have hopt : optBytesEq r.pubKey (hexDecode e.pubkey) = true := by
        rw [hpp, hpeq]
        simp [optBytesEq]
      have hle : decide (r.createdAt ≤ e.created_at) = true := by
        have hall := hnew
        unfold newestForItsGroup at hall
        rw [hrep] at hall
        simp only [Bool.not_true, Bool.false_or] at hall
        have h3 := (List.all_eq_true.mp hall) r hr
        rw [hkb, hopt] at h3
        simpa using h3
      have hcond : ((r.eid != idb) && (r.kind == e.kind)
          && optBytesEq r.pubKey (hexDecode e.pubkey)
          && decide (r.createdAt ≤ e.created_at) && !r.hidden) = true := by
        rw [hbne, hkb, hopt, hle, hh]
        rfl
      have hhide : hideOlderRow idb e.kind (hexDecode e.pubkey) e.created_at r
          = { r with hidden := true } := by
        unfold hideOlderRow hideIf
        rw [if_pos hcond]
      rw [hhide] at hvr0
      simp [visPred] at hvr0
    have hone : List.countP
        (visPred p k ∘ hideOlderRow idb e.kind (hexDecode e.pubkey) e.created_at)
        [insertedRow e idb] ≤ 1 :=
      le_trans (List.countP_le_length _) (by simp)
    omega
  · have hs : s.countP
        (visPred p k ∘ hideOlderRow idb e.kind (hexDecode e.pubkey) e.created_at)
        ≤ s.countP (visPred p k) :=
      List.countP_mono_left (fun r _ hp => visPred_hideIf _ p k r hp)
    have hrow0 : List.countP
        (visPred p k ∘ hideOlderRow idb e.kind (hexDecode e.pubkey) e.created_at)
        [insertedRow e idb] = 0 := by
      rw [List.countP_eq_zero]
      intro a ha
      rw [List.mem_singleton] at ha
      subst ha
      intro hvp
      have hv1 : visPred p k (insertedRow e idb) = true := visPred_hideIf _ p k _ hvp
      obtain ⟨-, hkk, hpp⟩ := visPred_decomp p k _ hv1
      exact hmain ⟨hkk.symm, hpp⟩
    have h1 := hinv p k hk
    unfold visibleCount at h1
    omega

theorem writeEvent_step_unique
    (s : Store) (e : Event) (s2 : Store) (n : Nat)
    (hinv : uniqueReplaceable s)
    (hnew : newestForItsGroup s e = true)
    (hw : writeEvent s e = .ok (s2, n)) :
    uniqueReplaceable s2 := by
  rcases hid : hexDecode e.id with _ | idb
  · rw [writeEvent, hid] at hw
    exact absurd hw (by simp)
  · simp only [writeEvent, hid] at hw
    split at hw
    · have hp := Except.ok.inj hw
      rw [Prod.mk.injEq] at hp
      obtain ⟨rfl, rfl⟩ := hp
      exact hinv
    · rename_i hdup
      have hdupf : s.any (fun r => r.eid == idb) = false := by
        cases h2 : s.any (fun r => r.eid == idb)
        · rfl
        · exact absurd h2 hdup
      split at hw
      · rename_i hk5
        have hke : e.kind = 5 := by simpa using hk5
        have hrep : replaceableKind e.kind = false := by rw [hke]; rfl
        rw [hrep] at hw
        simp only [Bool.false_eq_true, if_false] at hw
        split at hw
        · exact absurd hw (by simp)
        · have hp := Except.ok.inj hw
          rw [Prod.mk.injEq] at hp
          obtain ⟨rfl, rfl⟩ := hp
          apply uniqueReplaceable_map_hideIf
          apply uniqueReplaceable_append s _ hinv
          show replaceableKind e.kind = false
          rw [hke]
          rfl
      · split at hw
        · rename_i hrep
          have hbase := unique_hideOlder s e idb hinv hnew hrep hdupf
          split at hw
          · have hp := Except.ok.inj hw
            rw [Prod.mk.injEq] at hp
            obtain ⟨rfl, rfl⟩ := hp
            exact uniqueReplaceable_map_hideIf _ _ hbase
          · have hp := Except.ok.inj hw
            rw [Prod.mk.injEq] at hp
            obtain ⟨rfl, rfl⟩ := hp
            exact hbase
        · rename_i hrep
          have hbase : uniqueReplaceable (s ++ [insertedRow e idb]) := by
            apply uniqueReplaceable_append s _ hinv
            cases h2 : replaceableKind (insertedRow e idb).kind
            · rfl
            · exact absurd h2 hrep
          split at hw
          · have hp := Except.ok.inj hw
            rw [Prod.mk.injEq] at hp
            obtain ⟨rfl, rfl⟩ := hp
            exact uniqueReplaceable_map_hideIf _ _ hbase
          · have hp := Except.ok.inj hw
            rw [Prod.mk.injEq] at hp
            obtain ⟨rfl, rfl⟩ := hp
            exact hbase

theorem orderedRun_unique (es : List Event) :
    ∀ (s s2 : Store), uniqueReplaceable s → orderedRunB s es = true
      → writeAll s es = .ok s2 → uniqueReplaceable s2 := by
  induction es with
  | nil =>
    intro s s2 h0 _ hrun
    obtain rfl : s = s2 := by simpa [writeAll] using hrun
    exact h0
  | cons e es ih =>
    intro s s2 h0 hord hrun
    simp only [orderedRunB, Bool.and_eq_true] at hord
    obtain ⟨hnew, hrest⟩ := hord
    rcases hwe : writeEvent s e with m | q
    · rw [writeAll, hwe] at hrun
      exact absurd hrun (by simp)
    · rw [hwe] at hrest
      rw [writeAll, hwe] at hrun
      exact ih q.1 s2
        (writeEvent_step_unique s e q.1 q.2 h0 hnew (by rw [hwe]))
        hrest hrun

theorem processCore_reply_ne_blocked (store : Store) (e : Event) :
    (processCore store e).2.1 ≠ Reply.blocked := by
  unfold processCore
  split
  · simp
  · rcases hwe : writeEvent store e with m | p
    · simp [hwe]
    · rcases p with ⟨s2, n⟩
      by_cases hn : n == 0
      · simp [hwe, hn]
      · simp [hwe, hn]

/-! ## Claims. -/

set_option maxRecDepth 4000

/-- C1 (amended): after any sequence of successful `write_event` calls
in which every replaceable event arrives no older than the stored events
of its `(pubkey, kind)` group, at most one stored event per replaceable
`(pubkey, kind)` has `hidden = false`.  The original claim's clause that
the invariant survives inserting an older replaceable event after a
newer one is refuted by `c1_counterexample`: the UPDATE only hides
events with `created_at ≤` the incoming one. -/
theorem c1_ordered_writes_unique (es : List Event) (s2 : Store)
    (hord : orderedRunB [] es = true) (hrun : writeAll [] es = .ok s2) :
    uniqueReplaceable s2 :=
  orderedRun_unique es [] s2 (fun p k _ => by simp [visibleCount]) hord hrun

/-- C1 counterexample: writing a kind-0 event with `created_at = 200`
and then one with `created_at = 100` (same author) leaves two visible
rows for the replaceable pair `(bb, 0)`. -/
theorem c1_counterexample :
    writeAll [] [evB, evC] = .ok c1badStore
    ∧ visibleCount c1badStore [187] 0 = 2
    ∧ replaceableKind 0 = true := ⟨rfl, rfl, rfl⟩

/-- C1 witness: a run in ascending `created_at` order satisfies the
hypotheses and ends with at most one visible row per replaceable
group. -/
theorem c1_witness :
    orderedRunB [] [evA, evB] = true
    ∧ writeAll [] [evA, evB] = .ok c1goodStore
    ∧ uniqueReplaceable c1goodStore :=
  ⟨by decide, rfl, c1_ordered_writes_unique [evA, evB] c1goodStore (by decide) rfl⟩

/-- C2 (amended): for a filter with `since` and `until` set (and no
other constraints), the compiled query matches a row iff
`since < created_at < until` and the row is not hidden — the time
bounds are exclusive at both ends (`created_at > since`,
`created_at < until`), not inclusive as claimed. -/
theorem c2_time_bounds (f : ReqFilter) (r : StoredEvent) (s u : Nat)
    (ha : f.authors = none) (hi : f.ids = none) (ht : f.tags = none)
    (hk : f.kinds = none) (hs : f.since = some s) (hu : f.until_ = some u) :
    rowMatchesBasic f r = true ↔ (s < r.createdAt ∧ r.createdAt < u ∧ r.hidden = false) := by
  simp only [rowMatchesBasic, hk, hs, hu, Bool.true_and, Bool.and_eq_true,
    decide_eq_true_eq, Bool.not_eq_true']
  constructor
  · rintro ⟨⟨h1, h2⟩, h3⟩
    exact ⟨h1, h2, h3⟩
  · rintro ⟨h1, h2, h3⟩
    exact ⟨⟨h1, h2⟩, h3⟩

/-- C2 counterexample: a visible row with `created_at` exactly equal to
`since` (resp. `until`) is not matched, refuting inclusiveness. -/
theorem c2_counterexample :
    rowMatchesBasic c2filter c2rowLow = false
    ∧ rowMatchesBasic c2filter c2rowHigh = false := by decide

/-- C2 witness: a row strictly inside the window matches. -/
theorem c2_witness : rowMatchesBasic c2filter c2rowMid = true :=
  (c2_time_bounds c2filter c2rowMid 5 9 rfl rfl rfl rfl rfl rfl).mpr (by decide)

/-- C3: the even-length author prefix `"ab"` classifies as a Range, and
the SQL generated for it has an unbalanced parenthesis (the Range arm of
postgres.rs:251-262 pushes `"(e.pub_key > "` but never closes it), so
the compiled query is rejected by the SQL engine instead of returning
the matching events. -/
theorem c3_broken_range_sql :
    querySqlText c3filter
      = some "SELECT e.\"content\", e.created_at FROM \"event\" e WHERE (e.pub_key > $ AND e.pub_key < $ OR (e.delegated_by > $ AND e.delegated_by < $) AND hidden != 1::bit(1) ORDER BY e.created_at ASC"
    ∧ (querySqlText c3filter).map balancedParens = some false
    ∧ hexRange "ab" = some (HexSearch.range [171] [172]) := by
  refine ⟨rfl, rfl, rfl⟩

/-- C4: the write side stores the odd-length lowercase-hex value
`"abc"` (and the even-length non-hex value `"zz"`) as text, while the
query side compiles `hex::decode` of the same value — NULL — so the
stored event never matches a tag filter carrying the identical value:
the two encoding rules are not complementary. -/
theorem c4_tag_encoding_mismatch :
    tagRowValue "abc" = SqlVal.vtext "abc" ∧ queryTagParam "abc" = SqlVal.vnull
    ∧ tagLookupMatches "abc" = false
    ∧ tagRowValue "zz" = SqlVal.vtext "zz" ∧ queryTagParam "zz" = SqlVal.vnull
    ∧ tagLookupMatches "zz" = false
    ∧ (writeEvent [] c4event).map (fun p => p.1.map (tagClauseMatches "t" ["abc"]))
        = .ok [false] := by
  refine ⟨rfl, rfl, rfl, rfl, rfl, rfl, rfl⟩

/-- C5: deletion is order-independent.  For a regular event `e` with a
full-length lowercase-hex id and a kind-5 deletion by the same author
whose `e` tag holds `e.id`, writing `e` then `del`, or `del` then `e`,
both leave `e` stored with `hidden = true` (the second order returns 0
for `e`, suppressing the broadcast). -/
theorem c5_deletion_order_independent
    (e del : Event) (ib db pb : List Nat)
    (hlower : isLowerHex e.id = true) (hlen : e.id.length = 64)
    (hib : hexDecode e.id = some ib)
    (hpb : hexDecode e.pubkey = some pb)
    (hdb : hexDecode del.id = some db)
    (hne : db ≠ ib)
    (hdp : del.pubkey = e.pubkey)
    (hdk : del.kind = 5)
    (hdt : del.tags = [["e", e.id]])
    (hek : e.kind ≠ 5) :
    ∃ s1 s2 t1 t2,
      writeEvent [] e = .ok (s1, 1) ∧ writeEvent s1 del = .ok (s2, 1)
      ∧ writeEvent [] del = .ok (t1, 1) ∧ writeEvent t1 e = .ok (t2, 0)
      ∧ (∀ r ∈ s2, r.eid = ib → r.hidden = true) ∧ (∃ r ∈ s2, r.eid = ib)
      ∧ (∀ r ∈ t2, r.eid = ib → r.hidden = true) ∧ (∃ r ∈ t2, r.eid = ib) := by
  have hek5 : (e.kind == 5) = false := by simp [hek]
  have hbne5 : (e.kind != 5) = true := by simp [hek]
  have h5e : (5 == e.kind) = false := by simp [Ne.symm hek]
  have hnb : (ib == db) = false := by simp [Ne.symm hne]
  have hbn : (db == ib) = false := by simp [hne]
  have hisHex : isHex e.id = true := isHex_of_isLowerHex e.id hlower
  have hrk5 : replaceableKind 5 = false := rfl
  have htrv : tagRowValue e.id = SqlVal.vbytes ib := by
    simp [tagRowValue, hlower, hlen, hib]
  have hbuildDel : buildTagRows del.tags = [("e", SqlVal.vbytes ib)] := by
    rw [hdt]
    simp [buildTagRows, singleCharTagname, htrv]
  have w1 : writeEvent [] e = .ok ([insertedRow e ib], 1) := by
    simp [writeEvent, insertedRow, hib, hek5, hideOlderRow, hideIf]
  have w2 : writeEvent [insertedRow e ib] del
      = .ok ([{ insertedRow e ib with hidden := true }, insertedRow del db], 1) := by
    simp [writeEvent, insertedRow, hdb, hdk, hdt, hdp, hpb, hnb, hbne5, hisHex, hlen,
      hib, tagValuesByName, optBytesEq, hideIf, hbuildDel, hrk5]
  have w3 : writeEvent [] del = .ok ([insertedRow del db], 1) := by
    simp [writeEvent, insertedRow, hdb, hdk, hdt, hisHex, hlen, hib, tagValuesByName,
      hideIf, hrk5]
  have w4 : writeEvent [insertedRow del db] e
      = .ok ([insertedRow del db, { insertedRow e ib with hidden := true }], 0) := by
    simp [writeEvent, insertedRow, hib, hek5, hbn, h5e, hdk, hdp, hpb, hbuildDel,
      optBytesEq, sqlEq, hideOlderRow, hideIf]
  refine ⟨[insertedRow e ib],
          [{ insertedRow e ib with hidden := true }, insertedRow del db],
          [insertedRow del db],
          [insertedRow del db, { insertedRow e ib with hidden := true }],
          w1, w2, w3, w4, ?_, ?_, ?_, ?_⟩
  · intro r hr hrid
    rcases List.mem_cons.mp hr with h | h
    · subst h; rfl
    · rcases List.mem_singleton.mp h with h2
      subst h2
      exact absurd hrid hne
  · exact ⟨{ insertedRow e ib with hidden := true }, by simp, rfl⟩
  · intro r hr hrid
    rcases List.mem_cons.mp hr with h | h
    · subst h
      exact absurd hrid hne
    · rcases List.mem_singleton.mp h with h2
      subst h2
      rfl
  · exact ⟨{ insertedRow e ib with hidden := true }, by simp, rfl⟩

/-- C5 witness: concrete regular event and deletion with 64-character
lowercase-hex ids, in both orders. -/
theorem c5_witness :
    ∃ s1 s2 t1 t2,
      writeEvent [] c5event = .ok (s1, 1) ∧ writeEvent s1 c5del = .ok (s2, 1)
      ∧ writeEvent [] c5del = .ok (t1, 1) ∧ writeEvent t1 c5event = .ok (t2, 0)
      ∧ (∀ r ∈ s2, r.eid = List.replicate 32 170 → r.hidden = true)
      ∧ (∃ r ∈ s2, r.eid = List.replicate 32 170)
      ∧ (∀ r ∈ t2, r.eid = List.replicate 32 170 → r.hidden = true)
      ∧ (∃ r ∈ t2, r.eid = List.replicate 32 170) :=
  c5_deletion_order_independent c5event c5del
    (List.replicate 32 170) (List.replicate 32 187) (List.replicate 32 204)
    (by decide) (by decide) (by decide) (by decide) (by decide) (by decide)
    rfl rfl rfl (by decide)

/-- C6: submitting the same valid non-ephemeral, non-deletion event
twice starting from an empty store yields `write_event` results 1 then 0
(`ON CONFLICT (id) DO NOTHING`), one `saved` reply with a broadcast and
one `duplicate` reply without, and exactly one stored row. -/
theorem c6_duplicate_handling (e : Event) (ib : List Nat)
    (hid : hexDecode e.id = some ib)
    (hke : ¬(20000 ≤ e.kind ∧ e.kind < 30000))
    (hk5 : e.kind ≠ 5) :
    ∃ s1, writeEvent [] e = .ok (s1, 1) ∧ writeEvent s1 e = .ok (s1, 0)
      ∧ processEvent none [] e = (s1, Reply.saved, true)
      ∧ processEvent none s1 e = (s1, Reply.duplicate, false)
      ∧ s1.length = 1 := by
  have hk5b : (e.kind == 5) = false := by
    simp [hk5]
  have w1 : writeEvent [] e = .ok ([insertedRow e ib], 1) := by
    simp [writeEvent, insertedRow, hid, hk5b, hideOlderRow, hideIf]
  have w2 : writeEvent [insertedRow e ib] e = .ok ([insertedRow e ib], 0) := by
    simp [writeEvent, insertedRow, hid]
  refine ⟨[insertedRow e ib], w1, w2, ?_, ?_, rfl⟩
  · simp [processEvent, processCore, w1, hke]
  · simp [processEvent, processCore, w2, hke]

/-- C6 witness: the kind-0 event `evA` submitted twice. -/
theorem c6_witness :
    ∃ s1, writeEvent [] evA = .ok (s1, 1) ∧ writeEvent s1 evA = .ok (s1, 0)
      ∧ processEvent none [] evA = (s1, Reply.saved, true)
      ∧ processEvent none s1 evA = (s1, Reply.duplicate, false)
      ∧ s1.length = 1 :=
  c6_duplicate_handling evA [170] rfl (by decide) (by decide)

/-- C7 (amended): with a whitelist configured the Writer replies
`blocked` and drops the event iff the event's `pubkey` is not listed —
`delegated_by` is never consulted (the delegation check is an
unimplemented TODO in db.rs:155). -/
theorem c7_whitelist_ignores_delegation (wl : List String) (store : Store) (e : Event) :
    processEvent (some wl) store e = (store, Reply.blocked, false)
    ↔ wl.contains e.pubkey = false := by
  simp only [processEvent]
  by_cases hc : wl.contains e.pubkey = true
  · rw [if_pos hc, hc]
    simp only [Bool.true_eq_false, iff_false]
    intro heq
    exact processCore_reply_ne_blocked store e (congrArg (fun t => t.2.1) heq)
  · have hcf : wl.contains e.pubkey = false := by
      cases hcc : wl.contains e.pubkey
      · rfl
      · exact absurd hcc hc
    rw [if_neg hc, hcf]
    simp

/-- C7 counterexample: an event whose `delegated_by` is whitelisted but
whose `pubkey` is not is still blocked and dropped, refuting the claim
that such events pass. -/
theorem c7_counterexample :
    processEvent (some ["dd"]) [] c7event = ([], Reply.blocked, false)
    ∧ c7event.delegated_by = some "dd"
    ∧ ["dd"].contains "dd" = true
    ∧ ["dd"].contains c7event.pubkey = false := by
  refine ⟨rfl, rfl, rfl, rfl⟩

/-- C8 (amended): in state `Challenge`, for a validating kind-22242
event inside the ±600 s window, `authenticate` succeeds iff the *last*
length-2 `challenge` tag equals the stored nonce and the *last*
length-2 `relay` tag's host equals the relay URL's host — the tag scan
overwrites earlier matches, so multiple tags are not rejected. -/
theorem c8_last_tag_decides (nonce : String) (e : Event) (relayUrl : String) (now : Nat)
    (hv : e.sig_valid = true) (hk : e.kind = 22242)
    (hlo : now - 600 ≤ e.created_at) (hhi : e.created_at ≤ now + 600) :
    authenticate (AuthState.Challenge nonce) e relayUrl now
      = .ok (AuthState.AuthPubkey e.pubkey)
    ↔ (lastTagVal "challenge" e.tags = some nonce
       ∧ ∃ h, (lastTagVal "relay" e.tags).bind hostStr = some h
            ∧ hostStr relayUrl = some h) := by
  have hwin : (decide (e.created_at < now - 600) || decide (e.created_at > now + 600)) = false := by
    simp [Nat.not_lt.mpr hlo, Nat.not_lt.mpr hhi]
  simp only [authenticate, hv, Bool.not_true, Bool.false_eq_true, if_false, hk,
    bne_self_eq_false, hwin]
  rcases hc : lastTagVal "challenge" e.tags with _ | c
  · simp
  · by_cases hcn : c = nonce
    · subst hcn
      simp only [bne_self_eq_false, Bool.false_eq_true, if_false, Option.some.injEq,
        true_and]
      rcases hr : (lastTagVal "relay" e.tags).bind hostStr with _ | rc
      · rcases hu : hostStr relayUrl with _ | ours <;> simp
      · rcases hu : hostStr relayUrl with _ | ours
        · simp
        · by_cases hro : rc = ours
          · subst hro
            simp
          · have hb : (rc != ours) = true := by simp [hro]
            simp [hb, hro, eq_comm]
    · have hcb : (c != nonce) = true := by simp [hcn]
      simp [hcb, hcn]

/-- C8 counterexample: an otherwise valid AUTH event carrying two
`challenge` tags — the last one matching the nonce — authenticates
successfully, refuting the exactly-one-tag requirement. -/
theorem c8_counterexample :
    authenticate (AuthState.Challenge "n1") c8eventTwo "wss://relay.example/" 1000
      = .ok (AuthState.AuthPubkey "deadbeef")
    ∧ c8eventTwo.tags.countP (fun t => t.head? == some "challenge") = 2 := by
  refine ⟨rfl, rfl⟩

/-- C8 witness: an AUTH event with a single matching challenge and
relay tag authenticates. -/
theorem c8_witness :
    authenticate (AuthState.Challenge "n1") c8eventOk "wss://relay.example/" 1000
      = .ok (AuthState.AuthPubkey c8eventOk.pubkey) :=
  (c8_last_tag_decides "n1" c8eventOk "wss://relay.example/" 1000 rfl rfl
    (by decide) (by decide)).mpr ⟨rfl, "relay.example", rfl, rfl⟩

/-- C9 (amended): on a fresh connection, `subscribe` rejects exactly
the identifiers longer than 256 bytes (with `SubIdMaxLengthError`):
256 bytes succeed, 257 fail, and the empty identifier is accepted and
installed — there is no emptiness check. -/
theorem c9_subscribe_rule :
    (∀ s : Subscription, subscribe [] 32 s =
       if 256 < s.id.utf8ByteSize then .error ConnError.SubIdMaxLengthError
       else .ok [(s.id, s)])
    ∧ subscribe [] 32 sub256 = .ok [(sub256.id, sub256)]
    ∧ subscribe [] 32 sub257 = .error ConnError.SubIdMaxLengthError := by
  refine ⟨?_, ?_, ?_⟩
  · intro s
    by_cases h : 256 < s.id.utf8ByteSize
    · simp [subscribe, h]
    · simp [subscribe, h]
  · rfl
  · rfl

/-- C9 counterexample: the empty subscription id is accepted and
installed into the map, refuting the claim that it is rejected. -/
theorem c9_counterexample : subscribe [] 32 emptySub = .ok [("", emptySub)] := rfl

/-- C10: a kind-5 deletion none of whose `e` tags is a 64-character hex
id leaves the hide-update with an empty `IN ()` list, which the SQL
engine rejects: `write_event` returns an error, the transaction rolls
back (store unchanged), and the Writer replies with an error notice
instead of `saved`. -/
theorem c10_empty_deletion_errors (s : Store) (e : Event) (ib : List Nat)
    (hid : hexDecode e.id = some ib)
    (hdup : s.any (fun r => r.eid == ib) = false)
    (hk : e.kind = 5)
    (hcand : (tagValuesByName "e" e.tags).filter (fun x => isHex x && x.length == 64) = []) :
    writeEvent s e = .error "syntax error at or near the empty IN list"
    ∧ processEvent none s e = (s, Reply.errorNotice, false) := by
  have hw : writeEvent s e = .error "syntax error at or near the empty IN list" := by
    simp [writeEvent, hid, hdup, hk, hcand]
  refine ⟨hw, ?_⟩
  have hknd : ¬(20000 ≤ e.kind ∧ e.kind < 30000) := by
    rw [hk]; omega
  simp [processEvent, processCore, hw, hknd]

/-- C10 witness: a tagless kind-5 deletion on the empty store. -/
theorem c10_witness :
    writeEvent [] c10del = .error "syntax error at or near the empty IN list"
    ∧ processEvent none [] c10del = ([], Reply.errorNotice, false) :=
  c10_empty_deletion_errors [] c10del [255] rfl rfl rfl rfl

end NostrRelay
